import Mathlib

/-!
Shallow embedding of the session-and-reconciliation engine of the
`automattermostatus` repository (Rust), together with proofs of the
spec claims about it.

Conventions of the embedding:
* pure Rust functions become Lean functions;
* filesystem and network effects are made explicit: the state file is a
  `FS` value threaded through the functions, and the remote server's
  responses to the (at most two) HTTP requests of one call are an
  explicit environment (`SendEnv`, `LoginResponse`);
* `Utc::now().timestamp()` is the explicit parameter `now : Int`
  (an `i64` in Rust); `u64` quantities are `Nat`;
* panics (`Option::unwrap` on `None`) are an explicit outcome
  constructor, distinct from returned `Err` values;
* `serde_json` (de)serialization of `State` is embedded concretely:
  `encodeState` produces exactly the canonical JSON text
  `serde_json::to_string` produces for the derived `Serialize` of
  `State`/`Location` (including serde's string escaping), and
  `decodeState` is a real parser of that text which fails on any other
  input (a model of `serde_json::from_str` restricted to canonical
  form).
-/

namespace AMS

/-! ## src/state.rs : data model -/

/-- Model of `const MAX_SECS_BEFORE_FORCE_UPDATE: u64 = 60 * 60` (src/state.rs). -/
def MAX_SECS_BEFORE_FORCE_UPDATE : Nat := 60 * 60

/-- Model of `enum Location { Known(String), Unknown }` (src/state.rs). -/
inductive Location where
  | Known (ssid : String)
  | Unknown
deriving DecidableEq, Repr

/-- Model of `struct State { location: Location, lastchange_timestamp: i64 }` (src/state.rs). -/
structure State where
  location : Location
  lastchange_timestamp : Int
deriving DecidableEq, Repr

/-- Model of `struct Cache { path: PathBuf }` (src/state.rs). -/
structure Cache where
  path : String
deriving DecidableEq, Repr

/-- Explicit model of the slice of the filesystem the state cache touches:
whether the parent directory of the cache path exists, and the contents of
the cache file (`none` = absent / unreadable). `fs::write` succeeds exactly
when the parent directory exists. -/
structure FS where
  parentExists : Bool
  file : Option String
deriving DecidableEq, Repr

/-! ## src/mattermost/status.rs and src/mattermost/session.rs : data model -/

/-- Model of `struct MMCustomStatus` (src/mattermost/status.rs): custom status
text, emoji, optional duration kind and optional expiry instant.  The expiry
`DateTime<Local>` on the current local day is modelled by its number of
seconds since local midnight. -/
structure MMCustomStatus where
  text : String
  emoji : String
  duration : Option String
  expires_at : Option Nat
deriving DecidableEq, Repr

/-- Model of `struct LoggedSession` (src/mattermost/session.rs). -/
structure LoggedSession where
  base_uri : String
  token : String
  user_id : String
  user : Option String
  password : Option String
deriving DecidableEq, Repr

/-- Model of `ureq::Error` as it is distinguished by the code: a non-2xx
HTTP response (`ureq::Error::StatusCode(code)`) or any other
transport-level failure. -/
inductive UreqError where
  | statusCode (code : Nat)
  | transport
deriving DecidableEq, Repr

/-- Model of `enum MMSError` (src/mattermost/status.rs).  `loginError`
carries the message of the `anyhow::Error` produced by `relogin`. -/
inductive MMSError where
  | badJSONData
  | httpRequestError (e : UreqError)
  | loginError (msg : String)
deriving DecidableEq, Repr

/-- The remote server's response to one `POST /api/v4/users/login` exchange:
either a transport failure, or a response whose optional `Token` header is
given. -/
inductive LoginResponse where
  | transportError
  | response (tokenHeader : Option String)
deriving DecidableEq, Repr

/-- Result of one `LoggedSession::relogin` call: the returned
`Result` (the updated session on success) and the number of login POSTs
actually issued to the network. -/
structure ReloginOutcome where
  result : Except String LoggedSession
  posts : Nat
deriving Repr

/-- Model of `LoggedSession::relogin` (src/mattermost/session.rs):
if the session holds no stored user+password, bail out immediately with
success and an unchanged session (no network call); otherwise POST the
credentials and, if the response carries a `Token` header, replace the
stored token, else fail with `Login authentication failed`; a transport
failure is propagated as an error. -/
def LoggedSession.relogin (self : LoggedSession) (resp : LoginResponse) : ReloginOutcome :=
  match self.password, self.user with
  | some _, some _ =>
    match resp with
    | .transportError => ⟨.error ("transport error"), 1⟩
    | .response none => ⟨.error ("Login authentication failed"), 1⟩
    | .response (some tok) => ⟨.ok { self with token := tok }, 1⟩
  | _, _ => ⟨.ok self, 0⟩

/-- Environment for one `send_at` call: the server's outcome for the first
`_send_at_once` PUT (`.ok n` = HTTP success with status `n`, per ureq a
non-2xx status surfaces as `UreqError.statusCode`), the response to the
login POST should a relogin be issued, and the outcome of the second PUT
should a resend be issued. -/
structure SendEnv where
  first : Except UreqError Nat
  loginResp : LoginResponse
  second : Except UreqError Nat
deriving Repr

/-- Observable outcome of one `send_at` call: the returned `Result`, the
number of `_send_at_once` network sends issued, the number of `relogin()`
invocations, and the session afterwards. -/
structure SendOutcome where
  result : Except MMSError Nat
  sends : Nat
  relogins : Nat
  session : LoggedSession
deriving Repr

/-- Model of `MMSendable::send_at` (src/mattermost/status.rs): send once;
on `Ok` return the status; on a 401 status-code rejection call
`relogin()` exactly once — propagating a relogin failure as
`MMSError::LoginError` — and on relogin success resend exactly once,
returning that second outcome (mapped through
`MMSError::HTTPRequestError`) without further retry; any other
status-code rejection or transport failure is propagated immediately.
`to_json` of an `MMCustomStatus` cannot fail, so the `BadJSONData` path
is dead for this payload type. -/
def MMCustomStatus.send_at (_self : MMCustomStatus) (session : LoggedSession)
    (env : SendEnv) : SendOutcome :=
  match env.first with
  | .ok status => ⟨.ok status, 1, 0, session⟩
  | .error (.statusCode code) =>
    if code = 401 then
      let r := session.relogin env.loginResp
      match r.result with
      | .error e => ⟨.error (.loginError e), 1, 1, session⟩
      | .ok session' =>
        ⟨env.second.mapError .httpRequestError, 2, 1, session'⟩
    else ⟨.error (.httpRequestError (.statusCode code)), 1, 0, session⟩
  | .error .transport => ⟨.error (.httpRequestError .transport), 1, 0, session⟩

/-- Model of `MMCustomStatus::send` (src/mattermost/status.rs): `send_at`
with the fixed custom-status api path. -/
def MMCustomStatus.send (self : MMCustomStatus) (session : LoggedSession)
    (env : SendEnv) : SendOutcome :=
  self.send_at session env

/-! ## serde_json model: canonical JSON text of a `State` record

`serde_json::to_string(&State { location, lastchange_timestamp })` with the
derived `Serialize` produces
`\x7b"location":LOC,"lastchange_timestamp":TS\x7d` where `LOC` is
`"Unknown"` or `\x7b"Known":"..."\x7d` with serde's string escaping
(escape `"` and `\`, short escapes for \b \t \n \f \r, `\u00XX` with
lowercase hex for the remaining control characters), and `TS` is the
decimal representation of the `i64`. -/

/-- Lowercase hexadecimal digit character for `n < 16` (serde_json uses
lowercase hex in `\u00XX` escapes). -/
def hexDigitChar (n : Nat) : Char :=
  if n < 10 then Char.ofNat (48 + n) else Char.ofNat (87 + n)

/-- Inverse of `hexDigitChar`, accepting upper and lower case like
serde_json's unicode-escape parser. -/
def hexVal (c : Char) : Option Nat :=
  if '0' ≤ c ∧ c ≤ '9' then some (c.toNat - 48)
  else if 'a' ≤ c ∧ c ≤ 'f' then some (c.toNat - 87)
  else if 'A' ≤ c ∧ c ≤ 'F' then some (c.toNat - 55)
  else none

/-- How serde_json escapes one character inside a JSON string literal. -/
def escChar (c : Char) : List Char :=
  if c = '"' then ['\\', '"']
  else if c = '\\' then ['\\', '\\']
  else if c.toNat < 32 then
    if c = '\x08' then ['\\', 'b']
    else if c = '\x09' then ['\\', 't']
    else if c = '\x0a' then ['\\', 'n']
    else if c = '\x0c' then ['\\', 'f']
    else if c = '\x0d' then ['\\', 'r']
    else ['\\', 'u', '0', '0', hexDigitChar (c.toNat / 16), hexDigitChar (c.toNat % 16)]
  else [c]

/-- serde_json's escaping of a whole string (character list form). -/
def escapeList : List Char → List Char
  | [] => []
  | c :: rest => escChar c ++ escapeList rest

/-- Short escapes accepted after a backslash in a JSON string literal. -/
def unescChar (e : Char) : Option Char :=
  if e = '"' then some '"'
  else if e = '\\' then some '\\'
  else if e = '/' then some '/'
  else if e = 'b' then some '\x08'
  else if e = 't' then some '\x09'
  else if e = 'n' then some '\x0a'
  else if e = 'f' then some '\x0c'
  else if e = 'r' then some '\x0d'
  else none

/-- Parse the remainder of a JSON string literal (the opening `"` already
consumed): returns the unescaped characters and the input following the
closing `"`. -/
def parseStringChars : List Char → Option (List Char × List Char)
  | [] => none
  | c :: rest =>
    if c = '"' then some ([], rest)
    else if c = '\\' then
      match rest with
      | [] => none
      | e :: rest2 =>
        if e = 'u' then
          match rest2 with
          | h1 :: h2 :: h3 :: h4 :: rest3 =>
            match hexVal h1, hexVal h2, hexVal h3, hexVal h4 with
            | some a, some b, some c3, some d =>
              (parseStringChars rest3).map
                (fun p => (Char.ofNat (((a * 16 + b) * 16 + c3) * 16 + d) :: p.1, p.2))
            | _, _, _, _ => none
          | _ => none
        else
          match unescChar e with
          | some u => (parseStringChars rest2).map (fun p => (u :: p.1, p.2))
          | none => none
    else (parseStringChars rest).map (fun p => (c :: p.1, p.2))

/-- Decimal digit characters of `n`, most significant first (the decimal
text itoa/serde_json prints). -/
def natChars (n : Nat) : List Char :=
  if n = 0 then ['0']
  else ((Nat.digits 10 n).reverse.map (fun d => Char.ofNat (48 + d)))

/-- Decimal text of an `i64` value, with a leading `-` when negative. -/
def intChars (i : Int) : List Char :=
  if i < 0 then '-' :: natChars (-i).toNat else natChars i.toNat

/-- Numeric value of a big-endian list of decimal digit characters. -/
def digitsVal (cs : List Char) : Nat :=
  cs.foldl (fun a c => a * 10 + (c.toNat - 48)) 0

/-- Parse a run of decimal digits at the head of the input (at least one
digit required), returning its value and the rest. -/
def parseNatPart (cs : List Char) : Option (Nat × List Char) :=
  let ds := cs.takeWhile (fun c => c.isDigit)
  if ds = [] then none
  else some (digitsVal ds, cs.dropWhile (fun c => c.isDigit))

/-- Parse an optionally `-`-signed decimal integer at the head of the
input. -/
def parseIntPart : List Char → Option (Int × List Char)
  | [] => none
  | c :: rest =>
    if c = '-' then (parseNatPart rest).map (fun p => (-(p.1 : Int), p.2))
    else (parseNatPart (c :: rest)).map (fun p => ((p.1 : Int), p.2))

/-- Consume the exact character sequence `pat` at the head of `input`. -/
def expect (pat : List Char) (input : List Char) : Option (List Char) :=
  if pat.isPrefixOf input then some (input.drop pat.length) else none

/-- Canonical JSON characters of a `Location` (serde's derived
`Serialize` for `enum Location`). -/
def encodeLocationChars : Location → List Char
  | .Unknown => String.toList ("\"Unknown\"")
  | .Known s => String.toList ("\x7b\"Known\":\"") ++ escapeList s.toList ++ String.toList ("\"\x7d")

/-- Parse the JSON of a `Location`. -/
def decodeLocationChars (cs : List Char) : Option (Location × List Char) :=
  match expect (String.toList ("\"Unknown\"")) cs with
  | some rest => some (.Unknown, rest)
  | none =>
    match expect (String.toList ("\x7b\"Known\":\"")) cs with
    | some rest =>
      match parseStringChars rest with
      | some (str, rest2) =>
        match expect ['\x7d'] rest2 with
        | some rest3 => some (.Known ⟨str⟩, rest3)
        | none => none
      | none => none
    | none => none

/-- Canonical JSON characters of a `State` record, exactly as
`serde_json::to_string` produces them in `State::set_location`. -/
def encodeStateChars (s : State) : List Char :=
  String.toList ("\x7b\"location\":") ++ encodeLocationChars s.location
    ++ String.toList (",\"lastchange_timestamp\":") ++ intChars s.lastchange_timestamp
    ++ ['\x7d']

/-- Canonical JSON text of a `State` record. -/
def encodeState (s : State) : String :=
  ⟨encodeStateChars s⟩

/-- Model of `serde_json::from_str::<State>` on the file contents:
parses the canonical JSON text of a record and fails on any other
input. -/
def decodeState (s : String) : Option State :=
  match expect (String.toList ("\x7b\"location\":")) s.toList with
  | none => none
  | some r1 =>
    match decodeLocationChars r1 with
    | none => none
    | some (loc, r2) =>
      match expect (String.toList (",\"lastchange_timestamp\":")) r2 with
      | none => none
      | some r3 =>
        match parseIntPart r3 with
        | none => none
        | some (ts, r4) =>
          match r4 with
          | ['\x7d'] => some ⟨loc, ts⟩
          | _ => none

/-! ## src/state.rs : operations -/

/-- Model of `State::new` (src/state.rs): if the cache file can be read and
its contents parse as a `State`, return it; otherwise (file absent,
unreadable or corrupt) return the default record
`location = Unknown, lastchange_timestamp = 0`.  Every path returns `Ok`
in the Rust code, so the model is total. -/
def State.new (fs : FS) : State :=
  match fs.file with
  | some json =>
    match decodeState json with
    | some res => res
    | none => ⟨.Unknown, 0⟩
  | none => ⟨.Unknown, 0⟩

/-- Model of `State::set_location` (src/state.rs): set `location`, stamp
`lastchange_timestamp = Utc::now().timestamp()` (the parameter `now`),
serialize and write to the cache file.  The in-memory record is mutated
before the write, so it is returned even when the write fails;
`fs::write` fails — leaving the filesystem unchanged — exactly when the
parent directory of the cache path does not exist. -/
def State.set_location (self : State) (location : Location) (now : Int)
    (fs : FS) : State × FS × Except Unit Unit :=
  let s : State := { self with location := location, lastchange_timestamp := now }
  if fs.parentExists then
    (s, { fs with file := some (encodeState s) }, .ok ())
  else
    (s, fs, .error ())

/-- Model of `get_cache` (src/lib.rs): with a configured directory, run
`fs::create_dir_all` on it (making the parent directory of the cache file
exist) and return the cache path `dir/automattermostatus.state`; with
`None`, bail out with an internal error. -/
def get_cache (dir : Option String) (fs : FS) : Except String (Cache × FS) :=
  match dir with
  | some state_dir =>
    .ok (⟨state_dir ++ "/automattermostatus.state"⟩, { fs with parentExists := true })
  | none => .error ("Internal Error, no `state_dir` configured")

/-- What one `State::update_status` call returned and did: `ok` / an `Err`
value / a panic (the `status.unwrap()` on `None`). -/
inductive UpdateOutcome where
  | ok
  | error (e : MMSError)
  | persistError
  | panicked
deriving DecidableEq, Repr

/-- Full observable result of one `State::update_status` call: the
in-memory record afterwards, the filesystem afterwards, the session
afterwards, the number of HTTP sends and relogins issued, the payload
pushed (if the push branch was reached with a payload), and the returned
outcome. -/
structure UpdateResult where
  state : State
  fs : FS
  session : LoggedSession
  sends : Nat
  relogins : Nat
  sentStatus : Option MMCustomStatus
  outcome : UpdateOutcome
deriving Repr

/-- Model of `State::update_status` (src/state.rs).

If `current_location` is `Unknown`, return `Ok` at once (no send, no
write).  Otherwise, when `current_location` equals the stored location,
compute `elapsed_sec = (now - lastchange_timestamp).try_into().unwrap_or(0)`
(an `i64 → u64` conversion mapping negatives to 0, i.e. `Int.toNat`) and
skip with `Ok` when
`delay_between_polling * 2 < elapsed_sec ≤ MAX_SECS_BEFORE_FORCE_UPDATE`.
In every remaining case: `status.unwrap()` (panic when `status` is
`None`), send it (`MMCustomStatus::send`, i.e. `send_at`), propagate a
send error via `?` with record and file untouched, and on send success
call `set_location current_location` (which persists the new record with
timestamp `now`), propagating its write error. -/
def State.update_status (self : State) (current_location : Location)
    (status : Option MMCustomStatus) (session : LoggedSession) (fs : FS)
    (delay_between_polling : Nat) (now : Int) (env : SendEnv) : UpdateResult :=
  if current_location = Location.Unknown then
    ⟨self, fs, session, 0, 0, none, .ok⟩
  else
    let elapsed_sec : Nat := (now - self.lastchange_timestamp).toNat
    if current_location = self.location ∧ delay_between_polling * 2 < elapsed_sec
        ∧ elapsed_sec ≤ MAX_SECS_BEFORE_FORCE_UPDATE then
      ⟨self, fs, session, 0, 0, none, .ok⟩
    else
      match status with
      | none => ⟨self, fs, session, 0, 0, none, .panicked⟩
      | some st =>
        let so := st.send session env
        match so.result with
        | .error e => ⟨self, fs, so.session, so.sends, so.relogins, some st, .error e⟩
        | .ok _ =>
          match self.set_location current_location now fs with
          | (s', fs', .ok ()) =>
            ⟨s', fs', so.session, so.sends, so.relogins, some st, .ok⟩
          | (s', fs', .error ()) =>
            ⟨s', fs', so.session, so.sends, so.relogins, some st, .persistError⟩

/-! ## src/utils.rs and src/mattermost/status.rs : expiry computation -/

/-- Model of Rust `str::split(':')` on the character list of a string:
split at every colon, keeping empty pieces (the empty string gives one
empty piece, exactly like Rust's `split`). -/
def splitOnColon : List Char → List (List Char)
  | [] => [[]]
  | c :: rest =>
    if c = ':' then [] :: splitOnColon rest
    else
      match splitOnColon rest with
      | [] => [[c]]
      | p :: ps => (c :: p) :: ps

/-- Model of Rust `str::parse::<u32>` on a character list: an optional
leading `+` followed by at least one ASCII decimal digit, rejecting
values outside `u32` range. -/
def parseU32 (s : List Char) : Option Nat :=
  let cs := match s with
    | '+' :: r => r
    | r => r
  if cs ≠ [] ∧ cs.all (fun c => c.isDigit) then
    let v := digitsVal cs
    if v < 2 ^ 32 then some v else none
  else none

/-- Model of chrono's `NaiveDate::and_hms_opt(hh, mm, 0)` on the current
local day: defined exactly when `hh ≤ 23` and `mm ≤ 59`, and the
resulting instant is represented by its seconds since local midnight. -/
def and_hms_opt (hh mm : Nat) : Option Nat :=
  if hh ≤ 23 ∧ mm ≤ 59 then some (hh * 3600 + mm * 60) else none

/-- Model of `parse_from_hmstr` (src/utils.rs): split the string on `:`;
parse the first piece as a `u32` hour (failure aborts with `None`); the
minute is 0 when there is no second piece or the second piece does not
parse; build today's instant with `and_hms_opt hh mm`.  `None` input
yields `None`. -/
def parse_from_hmstr (time_str : Option String) : Option Nat :=
  match time_str with
  | none => none
  | some s =>
    match splitOnColon s.toList with
    | [] => none
    | first :: tail =>
      match parseU32 first with
      | none => none
      | some hh =>
        let mm : Nat := match tail with
          | [] => 0
          | m :: _ => (parseU32 m).getD 0
        and_hms_opt hh mm

/-- Model of the method `MMCustomStatus::expires_at` (src/mattermost/status.rs):
if `parse_from_hmstr` yields today's instant and `Local::now()` (the
parameter `nowSecs`, seconds since local midnight) is strictly before it,
set `expires_at` to that instant and `duration` to `date_and_time`;
otherwise leave the status unchanged.  `Local.from_local_datetime(..).latest()`
is modelled as always defined (a fixed-offset local timezone with no DST
gap on the current day). -/
def MMCustomStatus.expiresAt (self : MMCustomStatus) (time_str : Option String)
    (nowSecs : Nat) : MMCustomStatus :=
  match parse_from_hmstr time_str with
  | some expiry =>
    if nowSecs < expiry then
      { self with expires_at := some expiry, duration := some ("date_and_time") }
    else self
  | none => self

/-! ## Round-trip lemmas for the serde_json model -/

theorem hexVal_hexDigitChar : ∀ n, n < 16 → hexVal (hexDigitChar n) = some n := by
  decide

theorem toNat_digitChar : ∀ d, d < 10 → (Char.ofNat (48 + d)).toNat = 48 + d := by
  decide

theorem isDigit_digitChar : ∀ d, d < 10 → (Char.ofNat (48 + d)).isDigit = true := by
  decide

theorem parseStringChars_shortEsc (e u : Char) (he : unescChar e = some u)
    (hu : ¬ e = 'u') (t rest : List Char)
    (ih : parseStringChars (escapeList t ++ '"' :: rest) = some (t, rest)) :
    parseStringChars ('\\' :: e :: (escapeList t ++ '"' :: rest)) = some (u :: t, rest) := by
  rw [parseStringChars.eq_def]
  simp +decide [hu, he, ih]

theorem parseStringChars_escapeList (l : List Char) :
    ∀ rest, parseStringChars (escapeList l ++ '"' :: rest) = some (l, rest) := by
  induction l with
  | nil =>
    intro rest
    rw [show escapeList [] = [] from rfl, List.nil_append, parseStringChars.eq_def]
    simp
  | cons c t ih =>
    intro rest
    rw [show escapeList (c :: t) = escChar c ++ escapeList t from rfl, List.append_assoc]
    by_cases hq : c = '"'
    · subst hq
      rw [show escChar '"' = ['\\', '"'] from rfl]
      simp only [List.cons_append, List.nil_append]
      exact parseStringChars_shortEsc _ _ (by decide) (by decide) t rest (ih rest)
    · by_cases hb : c = '\\'
      · subst hb
        rw [show escChar '\\' = ['\\', '\\'] from rfl]
        simp only [List.cons_append, List.nil_append]
        exact parseStringChars_shortEsc _ _ (by decide) (by decide) t rest (ih rest)
      · by_cases hc : c.toNat < 32
        · by_cases h8 : c = '\x08'
          · subst h8
            rw [show escChar '\x08' = ['\\', 'b'] from rfl]
            simp only [List.cons_append, List.nil_append]
            exact parseStringChars_shortEsc _ _ (by decide) (by decide) t rest (ih rest)
          · by_cases h9 : c = '\x09'
            · subst h9
              rw [show escChar '\x09' = ['\\', 't'] from rfl]
              simp only [List.cons_append, List.nil_append]
              exact parseStringChars_shortEsc _ _ (by decide) (by decide) t rest (ih rest)
            · by_cases ha : c = '\x0a'
              · subst ha
                rw [show escChar '\x0a' = ['\\', 'n'] from rfl]
                simp only [List.cons_append, List.nil_append]
                exact parseStringChars_shortEsc _ _ (by decide) (by decide) t rest (ih rest)
              · by_cases hcc : c = '\x0c'
                · subst hcc
                  rw [show escChar '\x0c' = ['\\', 'f'] from rfl]
                  simp only [List.cons_append, List.nil_append]
                  exact parseStringChars_shortEsc _ _ (by decide) (by decide) t rest (ih rest)
                · by_cases hd : c = '\x0d'
                  · subst hd
                    rw [show escChar '\x0d' = ['\\', 'r'] from rfl]
                    simp only [List.cons_append, List.nil_append]
                    exact parseStringChars_shortEsc _ _ (by decide) (by decide) t rest (ih rest)
                  · have hv1 : c.toNat / 16 < 16 := by omega
                    have hv2 : c.toNat % 16 < 16 := Nat.mod_lt _ (by omega)
                    have e0 : hexVal '0' = some 0 := by decide
                    have e1 := hexVal_hexDigitChar _ hv1
                    have e2 := hexVal_hexDigitChar _ hv2
                    have hesc : escChar c = ['\\', 'u', '0', '0',
                        hexDigitChar (c.toNat / 16), hexDigitChar (c.toNat % 16)] := by
                      simp [escChar, hq, hb, hc, h8, h9, ha, hcc, hd]
                    rw [hesc]
                    simp only [List.cons_append, List.nil_append]
                    rw [parseStringChars.eq_def]
                    simp +decide [e0, e1, e2, ih]
                    rw [show c.toNat / 16 * 16 + c.toNat % 16 = c.toNat from by omega,
                      Char.ofNat_toNat]
        · have hesc : escChar c = [c] := by
            simp [escChar, hq, hb, hc]
          rw [hesc]
          simp only [List.cons_append, List.nil_append]
          rw [parseStringChars.eq_def]
          simp [hq, hb, ih]

theorem foldl_digits (L : List Nat) (hL : ∀ d ∈ L, d < 10) : ∀ acc : Nat,
    List.foldl (fun a c => a * 10 + (c.toNat - 48)) acc
      (L.reverse.map (fun d => Char.ofNat (48 + d)))
      = acc * 10 ^ L.length + Nat.ofDigits 10 L := by
  induction L with
  | nil => intro acc; simp [Nat.ofDigits]
  | cons d t ih =>
    intro acc
    have hd : d < 10 := hL d (by simp)
    have ht : ∀ x ∈ t, x < 10 := fun x hx => hL x (by simp [hx])
    simp only [List.reverse_cons, List.map_append, List.foldl_append, List.map_cons,
      List.map_nil, List.foldl_cons, List.foldl_nil, List.length_cons]
    rw [ih ht acc, toNat_digitChar d hd, Nat.ofDigits_cons]
    rw [show 48 + d - 48 = d from by omega]
    ring

theorem digitsVal_natChars (n : Nat) : digitsVal (natChars n) = n := by
  unfold natChars digitsVal
  by_cases h : n = 0
  · subst h; decide
  · simp only [h, if_false]
    have hlt : ∀ d ∈ Nat.digits 10 n, d < 10 :=
      fun d hd => Nat.digits_lt_base (by norm_num) hd
    have := foldl_digits (Nat.digits 10 n) hlt 0
    simpa [Nat.ofDigits_digits] using this

theorem natChars_all_digit (n : Nat) : ∀ c ∈ natChars n, c.isDigit = true := by
  unfold natChars
  by_cases h : n = 0
  · subst h; decide
  · simp only [h, if_false]
    intro c hc
    simp only [List.mem_map, List.mem_reverse] at hc
    obtain ⟨d, hd, rfl⟩ := hc
    exact isDigit_digitChar d (Nat.digits_lt_base (by norm_num) hd)

theorem natChars_ne_nil (n : Nat) : natChars n ≠ [] := by
  unfold natChars
  by_cases h : n = 0
  · subst h; decide
  · simp [h, Nat.digits_ne_nil_iff_ne_zero]

theorem takeWhile_append_digits (l₁ l₂ : List Char) (h : ∀ c ∈ l₁, c.isDigit = true)
    (h2 : ∀ d r, l₂ = d :: r → d.isDigit = false) :
    (l₁ ++ l₂).takeWhile (fun c => c.isDigit) = l₁
      ∧ (l₁ ++ l₂).dropWhile (fun c => c.isDigit) = l₂ := by
  induction l₁ with
  | nil =>
    cases l₂ with
    | nil => simp
    | cons d r => simp [List.takeWhile, List.dropWhile, h2 d r rfl]
  | cons c t ih =>
    have hc := h c (by simp)
    have ht : ∀ x ∈ t, x.isDigit = true := fun x hx => h x (by simp [hx])
    obtain ⟨h1, h2'⟩ := ih ht
    simp [List.takeWhile, List.dropWhile, hc, h1, h2']

theorem parseNatPart_natChars (n : Nat) (l₂ : List Char)
    (h2 : ∀ d r, l₂ = d :: r → d.isDigit = false) :
    parseNatPart (natChars n ++ l₂) = some (n, l₂) := by
  obtain ⟨h1, hdw⟩ := takeWhile_append_digits (natChars n) l₂ (natChars_all_digit n) h2
  unfold parseNatPart
  simp [h1, hdw, natChars_ne_nil n, digitsVal_natChars n]

theorem parseIntPart_intChars (i : Int) (l₂ : List Char)
    (h2 : ∀ d r, l₂ = d :: r → d.isDigit = false) :
    parseIntPart (intChars i ++ l₂) = some (i, l₂) := by
  unfold intChars
  by_cases h : i < 0
  · have hnn : (0 : Int) ≤ -i := by omega
    simp only [h, if_true, List.cons_append]
    rw [parseIntPart]
    simp [parseNatPart_natChars _ _ h2, Int.toNat_of_nonneg hnn]
  · obtain ⟨c, cs, hc⟩ : ∃ c cs, natChars i.toNat = c :: cs := by
      cases hnc : natChars i.toNat with
      | nil => exact absurd hnc (natChars_ne_nil _)
      | cons c cs => exact ⟨c, cs, rfl⟩
    have hcd : c.isDigit = true := natChars_all_digit _ c (by rw [hc]; simp)
    have hcne : ¬ (c = '-') := by
      intro hh; subst hh; exact absurd hcd (by decide)
    simp only [h, if_false]
    rw [hc, List.cons_append, parseIntPart]
    simp only [hcne, if_false]
    rw [← List.cons_append, ← hc, parseNatPart_natChars _ _ h2]
    simp [Int.toNat_of_nonneg (by omega : (0 : Int) ≤ i)]

theorem expect_append (p rest : List Char) : expect p (p ++ rest) = some rest := by
  simp [expect, List.isPrefixOf_iff_prefix, List.prefix_append, List.drop_left]

theorem expect_ne (a b : Char) (pt it : List Char) (h : ¬ a = b) :
    expect (a :: pt) (b :: it) = none := by
  simp [expect, List.isPrefixOf, beq_iff_eq, h]

theorem decodeLocationChars_encode (loc : Location) (rest : List Char) :
    decodeLocationChars (encodeLocationChars loc ++ rest) = some (loc, rest) := by
  cases loc with
  | Unknown =>
    unfold encodeLocationChars decodeLocationChars
    rw [expect_append]
  | Known s =>
    unfold encodeLocationChars decodeLocationChars
    have hk : String.toList ("\x7b\"Known\":\"")
        = '\x7b' :: String.toList ("\"Known\":\"") := rfl
    have hu : String.toList ("\"Unknown\"") = '"' :: String.toList ("Unknown\"") := rfl
    rw [hk, hu]
    simp only [List.cons_append, List.append_assoc]
    rw [expect_ne '"' '\x7b' _ _ (by decide)]
    rw [show ('\x7b' :: (String.toList ("\"Known\":\"")
      ++ (escapeList s.toList ++ (String.toList ("\"\x7d") ++ rest))))
      = ('\x7b' :: String.toList ("\"Known\":\""))
        ++ (escapeList s.toList ++ (String.toList ("\"\x7d") ++ rest)) from rfl]
    rw [← hk, expect_append]
    dsimp only
    rw [show String.toList ("\"\x7d") ++ rest = '"' :: ('\x7d' :: rest) from rfl]
    rw [parseStringChars_escapeList]
    dsimp only
    rw [show ('\x7d' :: rest) = ['\x7d'] ++ rest from rfl, expect_append]
    rfl

theorem decodeState_encodeState (s : State) : decodeState (encodeState s) = some s := by
  unfold decodeState encodeState encodeStateChars
  rw [show String.toList (⟨String.toList ("\x7b\"location\":") ++ encodeLocationChars s.location
        ++ String.toList (",\"lastchange_timestamp\":")
        ++ intChars s.lastchange_timestamp ++ ['\x7d']⟩ : String)
      = String.toList ("\x7b\"location\":") ++ encodeLocationChars s.location
        ++ String.toList (",\"lastchange_timestamp\":")
        ++ intChars s.lastchange_timestamp ++ ['\x7d'] from rfl]
  simp only [List.append_assoc]
  rw [expect_append]
  dsimp only
  rw [decodeLocationChars_encode]
  dsimp only
  rw [expect_append]
  dsimp only
  rw [parseIntPart_intChars _ _ (fun d r hdr => by
    cases hdr; decide)]
  rfl

/-! ## Helper lemmas about the send model -/

theorem send_sends_pos (st : MMCustomStatus) (session : LoggedSession) (env : SendEnv) :
    1 ≤ (st.send session env).sends := by
  unfold MMCustomStatus.send MMCustomStatus.send_at
  cases env.first with
  | ok n => simp
  | error e =>
    cases e with
    | statusCode c =>
      by_cases h : c = 401
      · subst h
        simp only [if_true]
        cases (session.relogin env.loginResp).result <;> simp
      · simp [h]
    | transport => simp

/-- Characterization of the branches of `State::update_status`: `Unknown`
candidate is an immediate `Ok` no-op. -/
theorem update_status_unknown_eq (self : State) (st : Option MMCustomStatus)
    (session : LoggedSession) (fs : FS) (delay : Nat) (now : Int) (env : SendEnv) :
    State.update_status self Location.Unknown st session fs delay now env
      = ⟨self, fs, session, 0, 0, none, UpdateOutcome.ok⟩ := by
  unfold State.update_status
  simp

/-- Characterization of the branches of `State::update_status`: when the
skip condition holds, the call is an `Ok` no-op. -/
theorem update_status_skip_eq (self : State) (l : String) (st : Option MMCustomStatus)
    (session : LoggedSession) (fs : FS) (delay : Nat) (now : Int) (env : SendEnv)
    (hcond : Location.Known l = self.location
        ∧ delay * 2 < (now - self.lastchange_timestamp).toNat
        ∧ (now - self.lastchange_timestamp).toNat ≤ MAX_SECS_BEFORE_FORCE_UPDATE) :
    State.update_status self (Location.Known l) st session fs delay now env
      = ⟨self, fs, session, 0, 0, none, UpdateOutcome.ok⟩ := by
  unfold State.update_status
  simp [hcond.1, hcond.2.1, hcond.2.2]

/-- Characterization of the branches of `State::update_status`: when the
push branch is reached with a `None` payload, the call panics. -/
theorem update_status_none_eq (self : State) (l : String)
    (session : LoggedSession) (fs : FS) (delay : Nat) (now : Int) (env : SendEnv)
    (h : ¬(Location.Known l = self.location
        ∧ delay * 2 < (now - self.lastchange_timestamp).toNat
        ∧ (now - self.lastchange_timestamp).toNat ≤ MAX_SECS_BEFORE_FORCE_UPDATE)) :
    State.update_status self (Location.Known l) none session fs delay now env
      = ⟨self, fs, session, 0, 0, none, UpdateOutcome.panicked⟩ := by
  unfold State.update_status
  rw [if_neg (by simp)]
  dsimp only
  rw [if_neg h]

/-- Characterization of the branches of `State::update_status`: when the
push branch is reached with a payload, the result is determined by the
send outcome and, on send success, by whether the state-file write
succeeds. -/
theorem update_status_push_eq (self : State) (l : String) (st : MMCustomStatus)
    (session : LoggedSession) (fs : FS) (delay : Nat) (now : Int) (env : SendEnv)
    (h : ¬(Location.Known l = self.location
        ∧ delay * 2 < (now - self.lastchange_timestamp).toNat
        ∧ (now - self.lastchange_timestamp).toNat ≤ MAX_SECS_BEFORE_FORCE_UPDATE)) :
    State.update_status self (Location.Known l) (some st) session fs delay now env
      = match (st.send session env).result with
        | Except.error e =>
          ⟨self, fs, (st.send session env).session, (st.send session env).sends,
            (st.send session env).relogins, some st, UpdateOutcome.error e⟩
        | Except.ok _ =>
          if fs.parentExists then
            ⟨⟨Location.Known l, now⟩,
              { fs with file := some (encodeState ⟨Location.Known l, now⟩) },
              (st.send session env).session, (st.send session env).sends,
              (st.send session env).relogins, some st, UpdateOutcome.ok⟩
          else
            ⟨⟨Location.Known l, now⟩, fs, (st.send session env).session,
              (st.send session env).sends, (st.send session env).relogins, some st,
              UpdateOutcome.persistError⟩ := by
  unfold State.update_status State.set_location
  rw [if_neg (by simp)]
  dsimp only
  rw [if_neg h]
  cases hso : (st.send session env).result with
  | error e => rfl
  | ok n =>
    by_cases hpe : fs.parentExists <;> simp [hpe]

/-! ## Claim theorems -/

/-- C1: when `State::update_status` is called with a `Known` candidate equal to
the stored location and the elapsed time `now - lastchange_timestamp` lies
strictly between `2 * poll_interval` and `MAX_SECS_BEFORE_FORCE_UPDATE = 3600`,
the call skips: no send is issued (`sends = 0`, `relogins = 0`), the stored
record and the file are unchanged, `Ok` is returned — and re-running the
decision on the resulting state under the same conditions skips again. -/
theorem update_status_skip_window (self : State) (l : String)
    (st : Option MMCustomStatus) (session : LoggedSession) (fs : FS)
    (delay : Nat) (now : Int) (env : SendEnv)
    (hloc : self.location = Location.Known l)
    (hlo : (delay * 2 : Int) < now - self.lastchange_timestamp)
    (hhi : now - self.lastchange_timestamp ≤ 3600) :
    State.update_status self (Location.Known l) st session fs delay now env
      = ⟨self, fs, session, 0, 0, none, UpdateOutcome.ok⟩
    ∧ State.update_status
        (State.update_status self (Location.Known l) st session fs delay now env).state
        (Location.Known l) st
        (State.update_status self (Location.Known l) st session fs delay now env).session
        (State.update_status self (Location.Known l) st session fs delay now env).fs
        delay now env
      = ⟨self, fs, session, 0, 0, none, UpdateOutcome.ok⟩ := by
  have h1 : delay * 2 < (now - self.lastchange_timestamp).toNat := by omega
  have h2 : (now - self.lastchange_timestamp).toNat ≤ MAX_SECS_BEFORE_FORCE_UPDATE := by
    unfold MAX_SECS_BEFORE_FORCE_UPDATE; omega
  have hmain : State.update_status self (Location.Known l) st session fs delay now env
      = ⟨self, fs, session, 0, 0, none, UpdateOutcome.ok⟩ := by
    unfold State.update_status
    simp [hloc, h1, h2]
  exact ⟨hmain, by rw [hmain]; exact hmain⟩

/-- Witness for C1 at the spec's §8 scenario: stored `Known "office"` at
`t0 = 1000`, candidate `Known "office"`, `poll_interval = 60`,
`now = t0 + 200` (elapsed 200 lies strictly between 120 and 3600). -/
theorem update_status_skip_window_witness :
    State.update_status ⟨Location.Known ("office"), 1000⟩ (Location.Known ("office"))
        (some ⟨("At the office"), ("office"), none, none⟩)
        ⟨("http://mm"), ("tok"), ("uid"), none, none⟩ ⟨true, none⟩ 60 1200
        ⟨Except.ok 200, LoginResponse.response (some ("tok2")), Except.ok 200⟩
      = ⟨⟨Location.Known ("office"), 1000⟩, ⟨true, none⟩,
          ⟨("http://mm"), ("tok"), ("uid"), none, none⟩, 0, 0, none, UpdateOutcome.ok⟩ :=
  (update_status_skip_window ⟨Location.Known ("office"), 1000⟩ ("office")
    (some ⟨("At the office"), ("office"), none, none⟩)
    ⟨("http://mm"), ("tok"), ("uid"), none, none⟩ ⟨true, none⟩ 60 1200
    ⟨Except.ok 200, LoginResponse.response (some ("tok2")), Except.ok 200⟩
    rfl (by decide) (by decide)).1

/-- C5: a call with an `Unknown` candidate location is a no-op for every
stored record, elapsed time, payload, filesystem and environment: no send,
record and file unchanged, `Ok` returned. -/
theorem update_status_unknown_noop (self : State) (st : Option MMCustomStatus)
    (session : LoggedSession) (fs : FS) (delay : Nat) (now : Int) (env : SendEnv) :
    State.update_status self Location.Unknown st session fs delay now env
      = ⟨self, fs, session, 0, 0, none, UpdateOutcome.ok⟩ := by
  unfold State.update_status
  simp

/-- C10: when the candidate is `Known` and the skip condition does not hold
(the push branch is reached) but `status` is `None`, `State::update_status`
panics (`status.unwrap()`) instead of returning an error, before any send
or write happens. -/
theorem update_status_none_status_panics (self : State) (l : String)
    (session : LoggedSession) (fs : FS) (delay : Nat) (now : Int) (env : SendEnv)
    (h : ¬(Location.Known l = self.location
        ∧ delay * 2 < (now - self.lastchange_timestamp).toNat
        ∧ (now - self.lastchange_timestamp).toNat ≤ MAX_SECS_BEFORE_FORCE_UPDATE)) :
    State.update_status self (Location.Known l) none session fs delay now env
      = ⟨self, fs, session, 0, 0, none, UpdateOutcome.panicked⟩ := by
  unfold State.update_status
  simp [h]
  intro h1 h2
  by_contra h4
  push_neg at h4
  have hm : MAX_SECS_BEFORE_FORCE_UPDATE = 3600 := rfl
  rw [hm] at h4
  exact h ⟨h1, by omega, by rw [hm]; omega⟩

/-- Witness for C10 at a concrete input: stored `Unknown`, candidate
`Known "home"` (location differs, so the push branch is reached) and no
payload. -/
theorem update_status_none_status_panics_witness :
    State.update_status ⟨Location.Unknown, 0⟩ (Location.Known ("home")) none
        ⟨("http://mm"), ("tok"), ("uid"), none, none⟩ ⟨true, none⟩ 60 100
        ⟨Except.ok 200, LoginResponse.response (some ("tok2")), Except.ok 200⟩
      = ⟨⟨Location.Unknown, 0⟩, ⟨true, none⟩,
          ⟨("http://mm"), ("tok"), ("uid"), none, none⟩, 0, 0, none,
          UpdateOutcome.panicked⟩ :=
  update_status_none_status_panics ⟨Location.Unknown, 0⟩ ("home")
    ⟨("http://mm"), ("tok"), ("uid"), none, none⟩ ⟨true, none⟩ 60 100
    ⟨Except.ok 200, LoginResponse.response (some ("tok2")), Except.ok 200⟩
    (by decide)

/-- C2: for a `Known` candidate with a supplied payload, unless the candidate
equals the stored location with `2 * poll_interval < elapsed ≤ 3600`, a push
is performed: at least one send is issued with exactly that payload, and on
send success (with a writable state directory) the record
`{location := candidate, lastchange_timestamp := now}` is persisted and `Ok`
returned.  The hypothesis covers all three spec cases: unchanged location
with `elapsed ≤ 2 * poll_interval`, unchanged location with
`elapsed > 3600`, and a changed location. -/
theorem update_status_pushes (self : State) (l : String) (st : MMCustomStatus)
    (session : LoggedSession) (fs : FS) (delay : Nat) (now : Int) (env : SendEnv)
    (h : ¬(Location.Known l = self.location
        ∧ delay * 2 < (now - self.lastchange_timestamp).toNat
        ∧ (now - self.lastchange_timestamp).toNat ≤ MAX_SECS_BEFORE_FORCE_UPDATE)) :
    1 ≤ (State.update_status self (Location.Known l) (some st) session fs delay now env).sends
    ∧ (State.update_status self (Location.Known l) (some st) session fs delay now env).sentStatus
        = some st
    ∧ (∀ n, (st.send session env).result = Except.ok n →
        (State.update_status self (Location.Known l) (some st) session fs delay now env).state
          = ⟨Location.Known l, now⟩
        ∧ (fs.parentExists = true →
            (State.update_status self (Location.Known l) (some st) session fs delay now env).fs.file
              = some (encodeState ⟨Location.Known l, now⟩)
            ∧ (State.update_status self (Location.Known l) (some st) session fs delay now env).outcome
              = UpdateOutcome.ok)) := by
  have he := update_status_push_eq self l st session fs delay now env h
  refine ⟨?_, ?_, ?_⟩
  · rw [he]
    cases hso : (st.send session env).result with
    | error e => simpa using send_sends_pos st session env
    | ok n =>
      by_cases hpe : fs.parentExists <;> simp [hpe] <;> exact send_sends_pos st session env
  · rw [he]
    cases hso : (st.send session env).result with
    | error e => rfl
    | ok n => by_cases hpe : fs.parentExists <;> simp [hpe]
  · intro n hok
    rw [he, hok]
    by_cases hpe : fs.parentExists
    · simp [hpe]
    · simp [hpe]

/-- Witness for C2 at the spec's §8 fresh-start scenario: stored
`{Unknown, 0}`, candidate `Known "office"` (location differs, always
push), the send succeeds with 200, the state directory exists. -/
theorem update_status_pushes_witness :
    1 ≤ (State.update_status ⟨Location.Unknown, 0⟩ (Location.Known ("office"))
          (some ⟨("At the office"), ("office"), none, none⟩)
          ⟨("http://mm"), ("tok"), ("uid"), none, none⟩ ⟨true, none⟩ 60 500
          ⟨Except.ok 200, LoginResponse.response (some ("tok2")), Except.ok 200⟩).sends
    ∧ (State.update_status ⟨Location.Unknown, 0⟩ (Location.Known ("office"))
          (some ⟨("At the office"), ("office"), none, none⟩)
          ⟨("http://mm"), ("tok"), ("uid"), none, none⟩ ⟨true, none⟩ 60 500
          ⟨Except.ok 200, LoginResponse.response (some ("tok2")), Except.ok 200⟩).state
        = ⟨Location.Known ("office"), 500⟩ :=
  ⟨(update_status_pushes ⟨Location.Unknown, 0⟩ ("office")
      ⟨("At the office"), ("office"), none, none⟩
      ⟨("http://mm"), ("tok"), ("uid"), none, none⟩ ⟨true, none⟩ 60 500
      ⟨Except.ok 200, LoginResponse.response (some ("tok2")), Except.ok 200⟩
      (by decide)).1,
   ((update_status_pushes ⟨Location.Unknown, 0⟩ ("office")
      ⟨("At the office"), ("office"), none, none⟩
      ⟨("http://mm"), ("tok"), ("uid"), none, none⟩ ⟨true, none⟩ 60 500
      ⟨Except.ok 200, LoginResponse.response (some ("tok2")), Except.ok 200⟩
      (by decide)).2.2 200 rfl).1⟩

/-- C3: a failed push propagates the send error and leaves the in-memory
record and the state file untouched; and whenever any `update_status` call
returns `Ok` after issuing at least one send, the stored location equals
the candidate location whose payload was sent. -/
theorem update_status_failed_push_untouched (self : State) (l : String)
    (st : MMCustomStatus) (session : LoggedSession) (fs : FS) (delay : Nat)
    (now : Int) (env : SendEnv)
    (h : ¬(Location.Known l = self.location
        ∧ delay * 2 < (now - self.lastchange_timestamp).toNat
        ∧ (now - self.lastchange_timestamp).toNat ≤ MAX_SECS_BEFORE_FORCE_UPDATE)) :
    (∀ e, (st.send session env).result = Except.error e →
        State.update_status self (Location.Known l) (some st) session fs delay now env
          = ⟨self, fs, (st.send session env).session, (st.send session env).sends,
              (st.send session env).relogins, some st, UpdateOutcome.error e⟩)
    ∧ (∀ (loc : Location) (stOpt : Option MMCustomStatus),
        (State.update_status self loc stOpt session fs delay now env).outcome
            = UpdateOutcome.ok →
        1 ≤ (State.update_status self loc stOpt session fs delay now env).sends →
        (State.update_status self loc stOpt session fs delay now env).state.location = loc) := by
  constructor
  · intro e he
    rw [update_status_push_eq self l st session fs delay now env h, he]
  · intro loc stOpt hok hsends
    cases loc with
    | Unknown =>
      rw [update_status_unknown_eq] at hsends
      exact absurd hsends (by simp)
    | Known l' =>
      by_cases hcond : Location.Known l' = self.location
          ∧ delay * 2 < (now - self.lastchange_timestamp).toNat
          ∧ (now - self.lastchange_timestamp).toNat ≤ MAX_SECS_BEFORE_FORCE_UPDATE
      · rw [update_status_skip_eq self l' stOpt session fs delay now env hcond] at hsends
        exact absurd hsends (by simp)
      · cases stOpt with
        | none =>
          rw [update_status_none_eq self l' session fs delay now env hcond] at hok
          exact absurd hok (by simp)
        | some st' =>
          rw [update_status_push_eq self l' st' session fs delay now env hcond] at hok ⊢
          cases hso : (st'.send session env).result with
          | error e =>
            rw [hso] at hok
            simp at hok
          | ok n =>
            rw [hso] at hok
            by_cases hpe : fs.parentExists
            · simp [hpe]
            · rw [if_neg hpe] at hok
              simp at hok

/-- Witness for C3 at a concrete input: stored `{Known "home", 1000}`,
candidate `Known "office"`, the send fails with a 500 status-code
rejection; the record and file are untouched and the error returned. -/
theorem update_status_failed_push_untouched_witness :
    State.update_status ⟨Location.Known ("home"), 1000⟩ (Location.Known ("office"))
        (some ⟨("At the office"), ("office"), none, none⟩)
        ⟨("http://mm"), ("tok"), ("uid"), none, none⟩ ⟨true, none⟩ 60 1100
        ⟨Except.error (UreqError.statusCode 500),
          LoginResponse.response (some ("tok2")), Except.ok 200⟩
      = ⟨⟨Location.Known ("home"), 1000⟩, ⟨true, none⟩,
          ⟨("http://mm"), ("tok"), ("uid"), none, none⟩, 1, 0,
          some ⟨("At the office"), ("office"), none, none⟩,
          UpdateOutcome.error (MMSError.httpRequestError (UreqError.statusCode 500))⟩ :=
  (update_status_failed_push_untouched ⟨Location.Known ("home"), 1000⟩ ("office")
      ⟨("At the office"), ("office"), none, none⟩
      ⟨("http://mm"), ("tok"), ("uid"), none, none⟩ ⟨true, none⟩ 60 1100
      ⟨Except.error (UreqError.statusCode 500),
        LoginResponse.response (some ("tok2")), Except.ok 200⟩
      (by decide)).1
    (MMSError.httpRequestError (UreqError.statusCode 500)) rfl

/-- C4: `send_at` on a first-send HTTP 401 rejection performs exactly one
`relogin()` and at most one resend: on relogin failure the relogin error is
propagated (`LoginError`, one send only); on relogin success the send is
repeated exactly once and its outcome returned without further retry, a
second 401 being propagated as a send error (`HTTPRequestError`); any
non-401 rejection or transport failure is propagated immediately with no
relogin and no resend. -/
theorem send_at_401_retry (st : MMCustomStatus) (session : LoggedSession) (env : SendEnv) :
    (env.first = Except.error (UreqError.statusCode 401) →
      (∀ e, (session.relogin env.loginResp).result = Except.error e →
          st.send_at session env
            = ⟨Except.error (MMSError.loginError e), 1, 1, session⟩)
      ∧ (∀ s', (session.relogin env.loginResp).result = Except.ok s' →
          st.send_at session env
            = ⟨env.second.mapError MMSError.httpRequestError, 2, 1, s'⟩
          ∧ (env.second = Except.error (UreqError.statusCode 401) →
              (st.send_at session env).result
                = Except.error (MMSError.httpRequestError (UreqError.statusCode 401)))))
    ∧ (∀ c, ¬ c = 401 → env.first = Except.error (UreqError.statusCode c) →
        st.send_at session env
          = ⟨Except.error (MMSError.httpRequestError (UreqError.statusCode c)), 1, 0, session⟩)
    ∧ (env.first = Except.error UreqError.transport →
        st.send_at session env
          = ⟨Except.error (MMSError.httpRequestError UreqError.transport), 1, 0, session⟩)
    ∧ (∀ n, env.first = Except.ok n →
        st.send_at session env = ⟨Except.ok n, 1, 0, session⟩) := by
  refine ⟨fun h401 => ⟨?_, ?_⟩, ?_, ?_, ?_⟩
  · intro e he
    unfold MMCustomStatus.send_at
    rw [h401]
    simp [he]
  · intro s' hs'
    constructor
    · unfold MMCustomStatus.send_at
      rw [h401]
      simp [hs']
    · intro h2
      unfold MMCustomStatus.send_at
      rw [h401]
      simp [hs', h2, Except.mapError]
  · intro c hc hfirst
    unfold MMCustomStatus.send_at
    rw [hfirst]
    simp [hc]
  · intro hfirst
    unfold MMCustomStatus.send_at
    rw [hfirst]
  · intro n hfirst
    unfold MMCustomStatus.send_at
    rw [hfirst]

/-- Witness for C4 at a concrete input: a credentialed session, first send
rejected with 401, relogin succeeds with a fresh token, the resend is
rejected with 401 again; exactly one relogin and two sends occur and the
second 401 is propagated as a send error. -/
theorem send_at_401_retry_witness :
    MMCustomStatus.send_at ⟨("At home"), ("house"), none, none⟩
        ⟨("http://mm"), ("old"), ("uid"), some ("user"), some ("pw")⟩
        ⟨Except.error (UreqError.statusCode 401),
          LoginResponse.response (some ("fresh")),
          Except.error (UreqError.statusCode 401)⟩
      = ⟨Except.error (MMSError.httpRequestError (UreqError.statusCode 401)), 2, 1,
          ⟨("http://mm"), ("fresh"), ("uid"), some ("user"), some ("pw")⟩⟩ :=
  ((send_at_401_retry ⟨("At home"), ("house"), none, none⟩
      ⟨("http://mm"), ("old"), ("uid"), some ("user"), some ("pw")⟩
      ⟨Except.error (UreqError.statusCode 401),
        LoginResponse.response (some ("fresh")),
        Except.error (UreqError.statusCode 401)⟩).1 rfl).2
    ⟨("http://mm"), ("fresh"), ("uid"), some ("user"), some ("pw")⟩ rfl |>.1

/-- C6: `State::new` returns the default record `{Unknown, 0}` — and never
an error (the model is total: every Rust path returns `Ok`) — both when
the state file is absent and when it is present but its contents fail to
parse as a record. -/
theorem State_new_recovers_default (fs : FS) :
    (fs.file = none → State.new fs = ⟨Location.Unknown, 0⟩)
    ∧ (∀ c, fs.file = some c → decodeState c = none →
        State.new fs = ⟨Location.Unknown, 0⟩) := by
  constructor
  · intro h
    unfold State.new
    rw [h]
  · intro c hc hd
    unfold State.new
    rw [hc]
    simp [hd]

/-- Witness for C6: an absent file and a concrete corrupt file both load as
the default record. -/
theorem State_new_recovers_default_witness :
    State.new ⟨true, none⟩ = ⟨Location.Unknown, 0⟩
    ∧ State.new ⟨true, some ("corrupt!")⟩ = ⟨Location.Unknown, 0⟩ :=
  ⟨(State_new_recovers_default ⟨true, none⟩).1 rfl,
   (State_new_recovers_default ⟨true, some ("corrupt!")⟩).2 ("corrupt!") rfl (by decide)⟩

/-- C7: round trip — after a successful store (`State::set_location`
serializing and writing the record), a subsequent load (`State::new` on
the same cache) returns exactly the record that was written, with the same
location and the same `lastchange_timestamp`. -/
theorem set_location_new_roundtrip (self : State) (loc : Location) (now : Int)
    (fs : FS) (h : fs.parentExists = true) :
    (State.set_location self loc now fs).2.2 = Except.ok ()
    ∧ State.new (State.set_location self loc now fs).2.1
        = (State.set_location self loc now fs).1 := by
  unfold State.set_location
  rw [if_pos h]
  refine ⟨rfl, ?_⟩
  unfold State.new
  simp [decodeState_encodeState]

/-- Witness for C7 at a concrete input. -/
theorem set_location_new_roundtrip_witness :
    (State.set_location ⟨Location.Unknown, 0⟩ (Location.Known ("office")) 42
        ⟨true, none⟩).2.2 = Except.ok ()
    ∧ State.new (State.set_location ⟨Location.Unknown, 0⟩ (Location.Known ("office")) 42
        ⟨true, none⟩).2.1
      = (State.set_location ⟨Location.Unknown, 0⟩ (Location.Known ("office")) 42
        ⟨true, none⟩).1 :=
  set_location_new_roundtrip ⟨Location.Unknown, 0⟩ (Location.Known ("office")) 42
    ⟨true, none⟩ rfl

/-- C8: the expiry builder sets the expiry and the duration kind if and only
if `parse_from_hmstr` yields today's instant and that instant is strictly
after now; otherwise (instant already passed, or no instant at all) the
status is left unchanged — never rolled to the next day.  Moreover, in
`parse_from_hmstr`, an unparsable hour yields no instant at all, and a
missing or unparsable minute defaults to 0. -/
theorem expiresAt_sets_iff (s₀ : MMCustomStatus) (tstr : Option String) (nowSecs : Nat)
    (hexp : s₀.expires_at = none) (hdur : s₀.duration = none) :
    (∀ e, parse_from_hmstr tstr = some e → nowSecs < e →
        (s₀.expiresAt tstr nowSecs).expires_at = some e
        ∧ (s₀.expiresAt tstr nowSecs).duration = some ("date_and_time"))
    ∧ (∀ e, parse_from_hmstr tstr = some e → e ≤ nowSecs →
        s₀.expiresAt tstr nowSecs = s₀)
    ∧ (parse_from_hmstr tstr = none → s₀.expiresAt tstr nowSecs = s₀)
    ∧ ((s₀.expiresAt tstr nowSecs).expires_at.isSome = true
        ↔ ∃ e, parse_from_hmstr tstr = some e ∧ nowSecs < e)
    ∧ ((s₀.expiresAt tstr nowSecs).duration.isSome = true
        ↔ (s₀.expiresAt tstr nowSecs).expires_at.isSome = true)
    ∧ (∀ (s : String) (first : List Char) (tail : List (List Char)),
        splitOnColon s.toList = first :: tail → parseU32 first = none →
        parse_from_hmstr (some s) = none)
    ∧ (∀ (s : String) (first : List Char),
        splitOnColon s.toList = [first] →
        parse_from_hmstr (some s) = (parseU32 first).bind (fun hh => and_hms_opt hh 0))
    ∧ (∀ (s : String) (first m : List Char) (tail : List (List Char)),
        splitOnColon s.toList = first :: m :: tail → parseU32 m = none →
        parse_from_hmstr (some s)
          = (parseU32 first).bind (fun hh => and_hms_opt hh 0)) := by
  refine ⟨?_, ?_, ?_, ?_, ?_, ?_, ?_, ?_⟩
  · intro e he hlt
    unfold MMCustomStatus.expiresAt
    rw [he]
    simp [hlt]
  · intro e he hle
    unfold MMCustomStatus.expiresAt
    rw [he]
    simp [Nat.not_lt.mpr hle]
  · intro hnone
    unfold MMCustomStatus.expiresAt
    rw [hnone]
  · unfold MMCustomStatus.expiresAt
    cases hp : parse_from_hmstr tstr with
    | none => simp [hexp]
    | some e =>
      by_cases hlt : nowSecs < e
      · simp [hlt]
      · simp [hlt, hexp]
  · unfold MMCustomStatus.expiresAt
    cases hp : parse_from_hmstr tstr with
    | none => simp [hexp, hdur]
    | some e =>
      by_cases hlt : nowSecs < e
      · simp [hlt]
      · simp [hlt, hexp, hdur]
  · intro s first tail hs hfirst
    unfold parse_from_hmstr
    dsimp only
    rw [hs]
    simp [hfirst]
  · intro s first hs
    unfold parse_from_hmstr
    dsimp only
    rw [hs]
    cases hu : parseU32 first <;> simp [hu]
  · intro s first m tail hs hm
    unfold parse_from_hmstr
    dsimp only
    rw [hs]
    cases hu : parseU32 first <;> simp [hu, hm]

/-- Witness for C8 at the spec's §8 example: `with_expiry("14:00")` at local
time 13:00 sets the expiry to today's 14:00 instant with the
`date_and_time` duration kind, and at local time 15:00 leaves the status
unchanged. -/
theorem expiresAt_sets_iff_witness :
    ((⟨("At home"), ("house"), none, none⟩ : MMCustomStatus).expiresAt
        (some ("14:00")) (13 * 3600)).expires_at = some (14 * 3600)
    ∧ ((⟨("At home"), ("house"), none, none⟩ : MMCustomStatus).expiresAt
        (some ("14:00")) (13 * 3600)).duration = some ("date_and_time")
    ∧ (⟨("At home"), ("house"), none, none⟩ : MMCustomStatus).expiresAt
        (some ("14:00")) (15 * 3600) = ⟨("At home"), ("house"), none, none⟩ :=
  ⟨((expiresAt_sets_iff ⟨("At home"), ("house"), none, none⟩ (some ("14:00"))
      (13 * 3600) rfl rfl).1 (14 * 3600) (by decide) (by decide)).1,
   ((expiresAt_sets_iff ⟨("At home"), ("house"), none, none⟩ (some ("14:00"))
      (13 * 3600) rfl rfl).1 (14 * 3600) (by decide) (by decide)).2,
   (expiresAt_sets_iff ⟨("At home"), ("house"), none, none⟩ (some ("14:00"))
      (15 * 3600) rfl rfl).2.1 (14 * 3600) (by decide) (by decide)⟩

/-- C9 counterexample: at a concrete input whose parent directory is
missing, `State::set_location` does not succeed — it returns an error —
and creates no directory (the filesystem is left unchanged), refuting the
claim that the store operation creates missing parent directories. -/
theorem set_location_no_mkdir_cex :
    (State.set_location ⟨Location.Unknown, 0⟩ (Location.Known ("home")) 100
        ⟨false, none⟩).2.2 = Except.error ()
    ∧ (State.set_location ⟨Location.Unknown, 0⟩ (Location.Known ("home")) 100
        ⟨false, none⟩).2.1 = ⟨false, none⟩ :=
  ⟨rfl, rfl⟩

/-- C9 (amended): `State::set_location` does not create parent directories:
when the parent directory of the cache path is missing it fails and leaves
the filesystem unchanged.  The parent directory is created by `get_cache`
(`fs::create_dir_all` at cache construction), after which `set_location`
succeeds in overwriting the state file with the serialized record. -/
theorem set_location_requires_parent_from_get_cache :
    (∀ (s : State) (loc : Location) (now : Int) (fs : FS), fs.parentExists = false →
        (State.set_location s loc now fs).2.2 = Except.error ()
        ∧ (State.set_location s loc now fs).2.1 = fs)
    ∧ (∀ (dir : String) (fs : FS) (s : State) (loc : Location) (now : Int),
        ∃ cache fs', get_cache (some dir) fs = Except.ok (cache, fs')
          ∧ fs'.parentExists = true
          ∧ (State.set_location s loc now fs').2.2 = Except.ok ()
          ∧ (State.set_location s loc now fs').2.1.file
              = some (encodeState ⟨loc, now⟩)) := by
  constructor
  · intro s loc now fs hpe
    unfold State.set_location
    simp [hpe]
  · intro dir fs s loc now
    exact ⟨⟨dir ++ ("/automattermostatus.state")⟩, ⟨true, fs.file⟩, rfl, rfl, rfl, rfl⟩

/-- Witness for the amended C9 at concrete inputs: with a missing parent the
store fails, and after `get_cache` has created the directory the same store
succeeds. -/
theorem set_location_requires_parent_witness :
    (State.set_location ⟨Location.Unknown, 0⟩ (Location.Known ("work")) 7
        ⟨false, some ("x")⟩).2.2 = Except.error ()
    ∧ ∃ cache fs',
        get_cache (some ("/home/u/.cache/automattermostatus")) ⟨false, none⟩
          = Except.ok (cache, fs')
        ∧ (State.set_location ⟨Location.Unknown, 0⟩ (Location.Known ("work")) 7
            fs').2.2 = Except.ok () := by
  refine ⟨(set_location_requires_parent_from_get_cache.1 ⟨Location.Unknown, 0⟩
    (Location.Known ("work")) 7 ⟨false, some ("x")⟩ rfl).1, ?_⟩
  obtain ⟨c, f, h1, _h2, h3, _h4⟩ :=
    set_location_requires_parent_from_get_cache.2
      ("/home/u/.cache/automattermostatus") ⟨false, none⟩ ⟨Location.Unknown, 0⟩
      (Location.Known ("work")) 7
  exact ⟨c, f, h1, h3⟩

end AMS
